import Mathlib

/-!
Verification of the in-memory bank ledger (`src/src/main.rs`).

The Rust program is embedded shallowly:

* `i64` values are `Int`; `i64::checked_add` becomes `checkedAddI64`, which
  returns `none` exactly when the mathematical sum leaves the `i64` range.
* `Account` mirrors the Rust struct; `deposit` / `withdraw` take the account
  and return the `Result` paired with the post-state (Rust mutates `self` in
  place; on an error the account is returned unchanged, as in the source).
* `Bank` holds its `HashMap<u32, Account>` as an association list with the
  map's first-match lookup semantics; the map invariant of distinct keys is
  carried as a `Nodup` hypothesis where a theorem needs it.
* `Bank.transfer` returns `Option (Except AccountError Unit × Bank)`:
  `none` models a panic of one of the three `.unwrap()` calls.
-/

namespace SimpleBank

def i64Min : Int := -(2 ^ 63)

def i64Max : Int := 2 ^ 63 - 1

/-- `i64::checked_add`: `none` when the exact sum falls outside the `i64`
range. -/
def checkedAddI64 (x y : Int) : Option Int :=
  if i64Min ≤ x + y ∧ x + y ≤ i64Max then some (x + y) else none

/-- The error enum `AccountError` of the source. -/
inductive AccountError where
  | NegativeAmount
  | InsufficientFunds
  | AmountOverflow
  | AccountNotFound
deriving DecidableEq, Repr

/-- The `Account` struct: id, balance in minor units, holder name. -/
structure Account where
  id : Nat
  balance : Int
  holder : String
deriving DecidableEq, Repr

/-- `Account::new`: fresh account with balance `0`. -/
def Account.new (id : Nat) (holder : String) : Account :=
  { id := id, holder := holder, balance := 0 }

/-- `Account::deposit`: reject negative amounts, then `checked_add` into the
balance; result is the Rust `Result` together with the post-state. -/
def Account.deposit (a : Account) (amount : Int) :
    Except AccountError Int × Account :=
  if amount < 0 then (Except.error AccountError.NegativeAmount, a)
  else
    match checkedAddI64 a.balance amount with
    | none => (Except.error AccountError.AmountOverflow, a)
    | some nb => (Except.ok nb, { a with balance := nb })

/-- `Account::withdraw`: reject negative amounts and overdrafts, then
subtract. -/
def Account.withdraw (a : Account) (amount : Int) :
    Except AccountError Int × Account :=
  if amount < 0 then (Except.error AccountError.NegativeAmount, a)
  else if a.balance < amount then (Except.error AccountError.InsufficientFunds, a)
  else (Except.ok (a.balance - amount), { a with balance := a.balance - amount })

/-- The `Bank` struct: its `HashMap<u32, Account>` as an association list
(first-match lookup, distinct keys as a side invariant). -/
structure Bank where
  accounts : List (Nat × Account)
deriving DecidableEq, Repr

/-- `Bank::new`: the empty map. -/
def Bank.new : Bank := ⟨[]⟩

/-- `HashMap::get` / `Bank::get_account`. -/
def Bank.find (b : Bank) (id : Nat) : Option Account :=
  b.accounts.lookup id

/-- `HashMap::contains_key`. -/
def Bank.containsKey (b : Bank) (id : Nat) : Bool :=
  (b.find id).isSome

/-- Writing through `HashMap::get_mut`: replace the account stored under
`id` (no change when `id` is absent). -/
def Bank.update (b : Bank) (id : Nat) (a : Account) : Bank :=
  ⟨b.accounts.map fun p => if p.1 = id then (id, a) else p⟩

/-- `Bank::add_account`: `HashMap::insert` keyed by the account's own id,
overwriting an existing entry. -/
def Bank.addAccount (b : Bank) (a : Account) : Bank :=
  if b.containsKey a.id then b.update a.id a else ⟨b.accounts ++ [(a.id, a)]⟩

/-- `Bank::total_balance`: sum of all stored balances. -/
def Bank.totalBalance (b : Bank) : Int :=
  (b.accounts.map fun p => p.2.balance).sum

/-- `Bank::transfer`. `none` models a panicking `.unwrap()`; otherwise the
result is the Rust `Result<(), AccountError>` paired with the post-state.
The two lookups of `from_id` in the source (the immutable borrow for the
balance pre-check and the mutable borrow for the withdrawal) are both
mirrored, as is the state left behind when the inner `withdraw` or
`deposit` propagates an error through `?`. -/
def Bank.transfer (b : Bank) (fromId toId : Nat) (amount : Int) :
    Option (Except AccountError Unit × Bank) :=
  if amount < 0 then some (Except.error AccountError.NegativeAmount, b)
  else if b.containsKey fromId = false then
    some (Except.error AccountError.AccountNotFound, b)
  else if b.containsKey toId = false then
    some (Except.error AccountError.AccountNotFound, b)
  else if fromId = toId then some (Except.ok (), b)
  else
    match b.find fromId with
    | none => none
    | some fromAccount =>
      if fromAccount.balance < amount then
        some (Except.error AccountError.InsufficientFunds, b)
      else
        match b.find fromId with
        | none => none
        | some fa =>
          let wr := fa.withdraw amount
          let b1 := b.update fromId wr.2
          match wr.1 with
          | Except.error e => some (Except.error e, b1)
          | Except.ok _ =>
            match b1.find toId with
            | none => none
            | some ta =>
              let dr := ta.deposit amount
              let b2 := b1.update toId dr.2
              match dr.1 with
              | Except.error e => some (Except.error e, b2)
              | Except.ok _ => some (Except.ok (), b2)

/-- One step of the driver: the operations `main` can apply to the ledger
(account-level `deposit` / `withdraw` on a registered account, and
`Bank::transfer`). A panicking transfer leaves no completed state; the
step keeps the prior state in that (unreachable) case. -/
inductive Op where
  | deposit (id : Nat) (amount : Int)
  | withdraw (id : Nat) (amount : Int)
  | transfer (fromId toId : Nat) (amount : Int)
deriving DecidableEq, Repr

def Bank.applyOp (b : Bank) : Op → Bank
  | Op.deposit id amt =>
    match b.find id with
    | none => b
    | some a => b.update id (a.deposit amt).2
  | Op.withdraw id amt =>
    match b.find id with
    | none => b
    | some a => b.update id (a.withdraw amt).2
  | Op.transfer f t amt =>
    match b.transfer f t amt with
    | none => b
    | some (_, b2) => b2

def Bank.applyOps (b : Bank) (ops : List Op) : Bank :=
  ops.foldl Bank.applyOp b

/-- Every balance in the ledger is non-negative. -/
def Bank.allNonNeg (b : Bank) : Prop :=
  ∀ p ∈ b.accounts, 0 ≤ p.2.balance

instance (b : Bank) : Decidable b.allNonNeg := by
  unfold Bank.allNonNeg
  infer_instance

/-- The ledger state of `main` just before the transfer: account 1 holds
25000 minor units, account 2 holds 30000. -/
def demoBank : Bank :=
  ⟨[(1, ⟨1, 25000, "Giorgi"⟩), (2, ⟨2, 30000, "QioJI"⟩)]⟩

/-- A ledger whose destination account is at the `i64` maximum, so a
deposit from a transfer overflows. -/
def brinkBank : Bank :=
  ⟨[(1, ⟨1, 100, "Giorgi"⟩), (2, ⟨2, i64Max, "QioJI"⟩)]⟩

/-! ### Lookup / update lemmas for the association-list map -/

theorem lookup_cons_pair (k x : Nat) (v : Account) (t : List (Nat × Account)) :
    List.lookup x ((k, v) :: t) = if x = k then some v else List.lookup x t := by
  simp only [List.lookup]
  cases hbeq : (x == k)
  · rw [if_neg (by simpa using hbeq)]
  · rw [if_pos (by simpa using hbeq)]

theorem find_update_of_ne (b : Bank) (id x : Nat) (a : Account) (h : x ≠ id) :
    (b.update id a).find x = b.find x := by
  rcases b with ⟨l⟩
  induction l with
  | nil => rfl
  | cons p t ih =>
    rcases p with ⟨k, v⟩
    simp only [Bank.update, Bank.find, List.map_cons] at ih ⊢
    by_cases hk : k = id
    · subst hk
      rw [if_pos rfl, lookup_cons_pair, lookup_cons_pair, if_neg h, if_neg h]
      exact ih
    · rw [if_neg hk, lookup_cons_pair, lookup_cons_pair]
      by_cases hx : x = k <;> simp [hx, ih]

theorem find_update_self (b : Bank) (id : Nat) (a : Account) :
    (b.update id a).find id = (b.find id).map fun _ => a := by
  rcases b with ⟨l⟩
  induction l with
  | nil => rfl
  | cons p t ih =>
    rcases p with ⟨k, v⟩
    simp only [Bank.update, Bank.find, List.map_cons] at ih ⊢
    by_cases hk : k = id
    · subst hk
      rw [if_pos rfl, lookup_cons_pair, lookup_cons_pair, if_pos rfl, if_pos rfl]
      rfl
    · rw [if_neg hk, lookup_cons_pair, lookup_cons_pair,
        if_neg fun h => hk h.symm, if_neg fun h => hk h.symm]
      exact ih

theorem containsKey_update (b : Bank) (id x : Nat) (a : Account) :
    (b.update id a).containsKey x = b.containsKey x := by
  unfold Bank.containsKey
  by_cases hx : x = id
  · subst hx
    rw [find_update_self]
    cases b.find x <;> rfl
  · rw [find_update_of_ne b id x a hx]

theorem mem_of_find_eq (b : Bank) (x : Nat) (v : Account)
    (h : b.find x = some v) : (x, v) ∈ b.accounts := by
  rcases b with ⟨l⟩
  induction l with
  | nil => simp [Bank.find] at h
  | cons p t ih =>
    rcases p with ⟨k, v'⟩
    simp only [Bank.find] at h ih
    rw [lookup_cons_pair] at h
    by_cases hk : x = k
    · subst hk
      rw [if_pos rfl] at h
      cases h
      exact List.mem_cons_self _ _
    · rw [if_neg hk] at h
      exact List.mem_cons_of_mem _ (ih h)

theorem update_map_eq_of_not_mem (t : List (Nat × Account)) (id : Nat)
    (a : Account) (h : id ∉ t.map Prod.fst) :
    (t.map fun p => if p.1 = id then (id, a) else p) = t := by
  induction t with
  | nil => rfl
  | cons p t ih =>
    simp only [List.map_cons, List.mem_cons] at h ⊢
    push_neg at h
    rw [if_neg fun hp => h.1 hp.symm, ih h.2]

theorem totalBalance_update (b : Bank) (id : Nat) (a a0 : Account)
    (hnd : (b.accounts.map Prod.fst).Nodup) (h : b.find id = some a0) :
    (b.update id a).totalBalance = b.totalBalance - a0.balance + a.balance := by
  rcases b with ⟨l⟩
  induction l with
  | nil => simp [Bank.find] at h
  | cons p t ih =>
    rcases p with ⟨k, v⟩
    simp only [Bank.find, Bank.update, Bank.totalBalance, List.map_cons,
      List.nodup_cons, List.sum_cons] at h hnd ih ⊢
    rw [lookup_cons_pair] at h
    by_cases hk : id = k
    · subst hk
      rw [if_pos rfl] at h
      cases h
      rw [if_pos rfl, update_map_eq_of_not_mem t id a hnd.1]
      ring
    · rw [if_neg hk] at h
      rw [if_neg fun hp => hk hp.symm]
      have h2 := ih hnd.2 h
      have hsv : ((k, v) : Nat × Account).2 = v := rfl
      rw [hsv]
      omega

theorem checkedAdd_some_eq (x y nb : Int) (h : checkedAddI64 x y = some nb) :
    nb = x + y := by
  unfold checkedAddI64 at h
  split at h
  · injection h with h
    exact h.symm
  · cases h

theorem update_map_fst (b : Bank) (id : Nat) (a : Account) :
    (b.update id a).accounts.map Prod.fst = b.accounts.map Prod.fst := by
  simp only [Bank.update, List.map_map]
  apply List.map_congr_left
  intro p _
  by_cases h : p.1 = id
  · simp [h]
  · simp [h]

/-- The behaviour of `Bank::transfer` once every pre-check passes: the
source is debited, then the deposit either overflows (leaving the debit in
place) or credits the destination. -/
theorem transfer_run_spec (b : Bank) (f t : Nat) (amt : Int) (fa ta : Account)
    (hf : b.find f = some fa) (ht : b.find t = some ta) (hne : f ≠ t)
    (h0 : 0 ≤ amt) (hbal : amt ≤ fa.balance) :
    b.transfer f t amt =
      match checkedAddI64 ta.balance amt with
      | none =>
        some (Except.error AccountError.AmountOverflow,
          (b.update f { fa with balance := fa.balance - amt }).update t ta)
      | some nb =>
        some (Except.ok (),
          (b.update f { fa with balance := fa.balance - amt }).update t
            { ta with balance := nb }) := by
  have hcf : b.containsKey f = true := by simp [Bank.containsKey, hf]
  have hct : b.containsKey t = true := by simp [Bank.containsKey, ht]
  have hwa : fa.withdraw amt =
      (Except.ok (fa.balance - amt), { fa with balance := fa.balance - amt }) := by
    simp [Account.withdraw, not_lt.mpr h0, not_lt.mpr hbal]
  have hb1 : (b.update f { fa with balance := fa.balance - amt }).find t =
      some ta := by
    rw [find_update_of_ne _ _ _ _ (Ne.symm hne)]
    exact ht
  cases hc : checkedAddI64 ta.balance amt with
  | none =>
    have hda : ta.deposit amt = (Except.error AccountError.AmountOverflow, ta) := by
      simp [Account.deposit, not_lt.mpr h0, hc]
    simp only [Bank.transfer, not_lt.mpr h0, not_lt.mpr hbal, hcf, hct, hne, hf,
      hwa, hb1, hda, Bool.true_eq_false, if_false, ite_false]
  | some nb =>
    have hda : ta.deposit amt = (Except.ok nb, { ta with balance := nb }) := by
      simp [Account.deposit, not_lt.mpr h0, hc]
    simp only [Bank.transfer, not_lt.mpr h0, not_lt.mpr hbal, hcf, hct, hne, hf,
      hwa, hb1, hda, Bool.true_eq_false, if_false, ite_false]

/-- All three `.unwrap()` sites are guarded: `transfer` always completes
with a `Result` and never panics. -/
theorem transfer_isSome (b : Bank) (f t : Nat) (amt : Int) :
    (b.transfer f t amt).isSome = true := by
  by_cases h0 : amt < 0
  · simp [Bank.transfer, h0]
  by_cases hcf : b.containsKey f = false
  · simp [Bank.transfer, h0, hcf]
  by_cases hct : b.containsKey t = false
  · simp [Bank.transfer, h0, hcf, hct]
  by_cases hft : f = t
  · simp [Bank.transfer, h0, hcf, hct, hft]
  obtain ⟨fa, hfa⟩ : ∃ fa, b.find f = some fa :=
    Option.ne_none_iff_exists'.mp (by simpa [Bank.containsKey] using hcf)
  obtain ⟨ta, hta⟩ : ∃ ta, b.find t = some ta :=
    Option.ne_none_iff_exists'.mp (by simpa [Bank.containsKey] using hct)
  by_cases hbal : fa.balance < amt
  · simp [Bank.transfer, h0, hcf, hct, hft, hfa, hbal]
  · rw [transfer_run_spec b f t amt fa ta hfa hta hft (not_lt.mp h0)
      (not_lt.mp hbal)]
    cases checkedAddI64 ta.balance amt <;> rfl

end SimpleBank

namespace SimpleBank

/-- Claim C7: For every account and every `amount < 0`, both `deposit` and `withdraw`
fail with `NegativeAmount` and leave the account unchanged. -/
theorem deposit_withdraw_negative (a : Account) (amount : Int)
    (h : amount < 0) :
    a.deposit amount = (Except.error AccountError.NegativeAmount, a) ∧
      a.withdraw amount = (Except.error AccountError.NegativeAmount, a) := by
  constructor
  · simp [Account.deposit, h]
  · simp [Account.withdraw, h]

/-- Witness for `deposit_withdraw_negative` at `amount = -5`. -/
theorem deposit_withdraw_negative_witness :
    (Account.new 1 "Giorgi").deposit (-5) =
        (Except.error AccountError.NegativeAmount, Account.new 1 "Giorgi") ∧
      (Account.new 1 "Giorgi").withdraw (-5) =
        (Except.error AccountError.NegativeAmount, Account.new 1 "Giorgi") :=
  deposit_withdraw_negative (Account.new 1 "Giorgi") (-5) (by decide)

/-- Claim C6: For every account and every non-negative `amount` strictly greater than
the balance, `withdraw` fails with `InsufficientFunds` and the balance is
unchanged. -/
theorem withdraw_insufficient (a : Account) (amount : Int)
    (h0 : 0 ≤ amount) (h : a.balance < amount) :
    a.withdraw amount = (Except.error AccountError.InsufficientFunds, a) := by
  simp [Account.withdraw, h, not_lt.mpr h0]

/-- Witness for `withdraw_insufficient`: a zero-balance account cannot pay
out `7`. -/
theorem withdraw_insufficient_witness :
    (Account.new 2 "QioJI").withdraw 7 =
      (Except.error AccountError.InsufficientFunds, Account.new 2 "QioJI") :=
  withdraw_insufficient (Account.new 2 "QioJI") 7 (by decide) (by decide)

/-- Claim C8: Depositing `x` then `y` (both non-negative, no step overflowing) gives
the same result and final account as depositing `x + y` at once. -/
theorem deposit_add (a : Account) (x y : Int)
    (hx : 0 ≤ x) (hy : 0 ≤ y) (hmin : i64Min ≤ a.balance)
    (h1 : a.balance + x ≤ i64Max) (h2 : a.balance + x + y ≤ i64Max) :
    ((a.deposit x).2.deposit y).2 = (a.deposit (x + y)).2 ∧
      ((a.deposit x).2.deposit y).1 = (a.deposit (x + y)).1 := by
  have hx' : ¬ x < 0 := not_lt.mpr hx
  have hy' : ¬ y < 0 := not_lt.mpr hy
  have hxy' : ¬ x + y < 0 := by omega
  have c1 : checkedAddI64 a.balance x = some (a.balance + x) := by
    unfold checkedAddI64 i64Min i64Max at *
    rw [if_pos]
    omega
  have c2 : checkedAddI64 (a.balance + x) y = some (a.balance + x + y) := by
    unfold checkedAddI64 i64Min i64Max at *
    rw [if_pos]
    omega
  have c3 : checkedAddI64 a.balance (x + y) = some (a.balance + (x + y)) := by
    unfold checkedAddI64 i64Min i64Max at *
    rw [if_pos]
    omega
  constructor
  · simp [Account.deposit, hx', hy', hxy', c1, c2, c3]
    omega
  · simp [Account.deposit, hx', hy', hxy', c1, c2, c3]
    omega

/-- Witness for `deposit_add` at balance `0`, amounts `50000` and `30000`. -/
theorem deposit_add_witness :
    (((Account.new 1 "Giorgi").deposit 50000).2.deposit 30000).2 =
        ((Account.new 1 "Giorgi").deposit (50000 + 30000)).2 ∧
      (((Account.new 1 "Giorgi").deposit 50000).2.deposit 30000).1 =
        ((Account.new 1 "Giorgi").deposit (50000 + 30000)).1 :=
  deposit_add (Account.new 1 "Giorgi") 50000 30000 (by decide) (by decide)
    (by decide) (by decide) (by decide)

/-- Claim C5: For every registered id `x` and non-negative `amount`,
`transfer(x, x, amount)` succeeds as a no-op (the same ledger comes back),
even when `amount` exceeds the balance: the self-transfer short-circuit
runs before the insufficient-funds pre-check. -/
theorem transfer_self_noop (b : Bank) (x : Nat) (amt : Int)
    (hx : b.containsKey x = true) (h0 : 0 ≤ amt) :
    b.transfer x x amt = some (Except.ok (), b) := by
  simp [Bank.transfer, hx, not_lt.mpr h0]

/-- Witness for `transfer_self_noop`: a self-transfer of `999999` — far
beyond account 1's balance of `25000` — still succeeds unchanged. -/
theorem transfer_self_noop_witness :
    demoBank.transfer 1 1 999999 = some (Except.ok (), demoBank) :=
  transfer_self_noop demoBank 1 999999 (by decide) (by decide)

/-- Claim C10: `transfer` never hits a panicking `.unwrap()` (it always
returns a `Result`), and once `0 ≤ amount ≤ balance` has been pre-checked,
the inner `withdraw` of step 5 cannot fail: it returns `Ok` with the
debited balance. -/
theorem transfer_never_panics (b : Bank) (f t : Nat) (amt : Int) (a : Account) :
    (b.transfer f t amt).isSome = true ∧
      (0 ≤ amt → amt ≤ a.balance →
        a.withdraw amt = (Except.ok (a.balance - amt),
          { a with balance := a.balance - amt })) := by
  refine ⟨transfer_isSome b f t amt, fun h0 hbal => ?_⟩
  simp [Account.withdraw, not_lt.mpr h0, not_lt.mpr hbal]

/-- Witness for `transfer_never_panics` on the demo ledger and the demo
source account. -/
theorem transfer_never_panics_witness :
    (demoBank.transfer 1 2 10000).isSome = true ∧
      Account.withdraw ⟨1, 25000, "Giorgi"⟩ 10000 =
        (Except.ok ((25000 : Int) - 10000),
          { (⟨1, 25000, "Giorgi"⟩ : Account) with balance := (25000 : Int) - 10000 }) :=
  ⟨(transfer_never_panics demoBank 1 2 10000 ⟨1, 25000, "Giorgi"⟩).1,
    (transfer_never_panics demoBank 1 2 10000 ⟨1, 25000, "Giorgi"⟩).2
      (by decide) (by decide)⟩

/-- Claim C2: When all pre-checks pass (`f ≠ t`, both registered,
`0 ≤ amount ≤ source balance`) but crediting the destination would exceed
`i64::MAX`, `transfer` returns `AmountOverflow`; the source is left debited
by `amount` (no rollback) while the destination's account is unchanged. -/
theorem transfer_overflow_partial (b : Bank) (f t : Nat) (amt : Int)
    (fa ta : Account) (hf : b.find f = some fa) (ht : b.find t = some ta)
    (hne : f ≠ t) (h0 : 0 ≤ amt) (hbal : amt ≤ fa.balance)
    (hov : i64Max < ta.balance + amt) :
    b.transfer f t amt =
      some (Except.error AccountError.AmountOverflow,
        (b.update f { fa with balance := fa.balance - amt }).update t ta) ∧
      ((b.update f { fa with balance := fa.balance - amt }).update t ta).find f =
        some { fa with balance := fa.balance - amt } ∧
      ((b.update f { fa with balance := fa.balance - amt }).update t ta).find t =
        some ta := by
  have hc : checkedAddI64 ta.balance amt = none := by
    unfold checkedAddI64
    rw [if_neg]
    intro hcon
    omega
  refine ⟨?_, ?_, ?_⟩
  · rw [transfer_run_spec b f t amt fa ta hf ht hne h0 hbal, hc]
  · rw [find_update_of_ne _ _ _ _ hne, find_update_self, hf]
    rfl
  · rw [find_update_self, find_update_of_ne _ _ _ _ (Ne.symm hne), ht]
    rfl

/-- Witness for `transfer_overflow_partial`: transferring 50 into an
account already at `i64::MAX` overflows and leaves the 50 debited. -/
theorem transfer_overflow_partial_witness :
    brinkBank.transfer 1 2 50 =
      some (Except.error AccountError.AmountOverflow,
        (brinkBank.update 1 ⟨1, 100 - 50, "Giorgi"⟩).update 2 ⟨2, i64Max, "QioJI"⟩) ∧
      ((brinkBank.update 1 ⟨1, 100 - 50, "Giorgi"⟩).update 2
          ⟨2, i64Max, "QioJI"⟩).find 1 = some ⟨1, 100 - 50, "Giorgi"⟩ ∧
      ((brinkBank.update 1 ⟨1, 100 - 50, "Giorgi"⟩).update 2
          ⟨2, i64Max, "QioJI"⟩).find 2 = some ⟨2, i64Max, "QioJI"⟩ :=
  transfer_overflow_partial brinkBank 1 2 50 ⟨1, 100, "Giorgi"⟩ ⟨2, i64Max, "QioJI"⟩
    (by decide) (by decide) (by decide) (by decide) (by decide) (by decide)

/-- Claim C3: Whenever `transfer` returns `NegativeAmount`,
`AccountNotFound`, or `InsufficientFunds`, the failure came from a
side-effect-free pre-check: the ledger comes back exactly as it was — no
balance mutated, no account added or removed. -/
theorem transfer_precheck_no_mutation (b b2 : Bank) (f t : Nat) (amt : Int)
    (e : AccountError)
    (h : b.transfer f t amt = some (Except.error e, b2))
    (he : e = AccountError.NegativeAmount ∨ e = AccountError.AccountNotFound ∨
      e = AccountError.InsufficientFunds) :
    b2 = b := by
  by_cases h0 : amt < 0
  · simp [Bank.transfer, h0] at h
    exact h.2.symm
  by_cases hcf : b.containsKey f = false
  · simp [Bank.transfer, h0, hcf] at h
    exact h.2.symm
  by_cases hct : b.containsKey t = false
  · simp [Bank.transfer, h0, hcf, hct] at h
    exact h.2.symm
  by_cases hft : f = t
  · simp [Bank.transfer, h0, hcf, hct, hft] at h
  obtain ⟨fa, hfa⟩ : ∃ fa, b.find f = some fa :=
    Option.ne_none_iff_exists'.mp (by simpa [Bank.containsKey] using hcf)
  obtain ⟨ta, hta⟩ : ∃ ta, b.find t = some ta :=
    Option.ne_none_iff_exists'.mp (by simpa [Bank.containsKey] using hct)
  by_cases hbal : fa.balance < amt
  · simp [Bank.transfer, h0, hcf, hct, hft, hfa, hbal] at h
    exact h.2.symm
  · rw [transfer_run_spec b f t amt fa ta hfa hta hft (not_lt.mp h0)
      (not_lt.mp hbal)] at h
    cases hc : checkedAddI64 ta.balance amt with
    | none =>
      rw [hc] at h
      simp at h
      rcases he with he | he | he <;> simp [he] at h
    | some nb =>
      rw [hc] at h
      simp at h

/-- Witness for `transfer_precheck_no_mutation`: `transfer(1, 2, -5)` fails
with `NegativeAmount` and the demo ledger is unchanged. -/
theorem transfer_precheck_no_mutation_witness :
    demoBank.transfer 1 2 (-5) =
        some (Except.error AccountError.NegativeAmount, demoBank) ∧
      demoBank = demoBank :=
  ⟨by rfl,
    transfer_precheck_no_mutation demoBank demoBank 1 2 (-5)
      AccountError.NegativeAmount (by rfl) (Or.inl rfl)⟩

/-- Claim C1: Every successful `transfer(f, t, amount)` with `f ≠ t` debits
the source by exactly `amount`, credits the destination by exactly
`amount`, leaves `total_balance` unchanged, and leaves every other account
untouched. -/
theorem transfer_success_balances (b b2 : Bank) (f t : Nat) (amt : Int)
    (fa ta : Account) (hnd : (b.accounts.map Prod.fst).Nodup)
    (hf : b.find f = some fa) (ht : b.find t = some ta) (hne : f ≠ t)
    (h0 : 0 ≤ amt)
    (h : b.transfer f t amt = some (Except.ok (), b2)) :
    b2.find f = some { fa with balance := fa.balance - amt } ∧
      b2.find t = some { ta with balance := ta.balance + amt } ∧
      b2.totalBalance = b.totalBalance ∧
      ∀ x, x ≠ f → x ≠ t → b2.find x = b.find x := by
  have hcf : b.containsKey f = true := by simp [Bank.containsKey, hf]
  have hct : b.containsKey t = true := by simp [Bank.containsKey, ht]
  have hbal : amt ≤ fa.balance := by
    by_contra hcon
    push_neg at hcon
    simp [Bank.transfer, not_lt.mpr h0, hcf, hct, hne, hf, hcon] at h
  rw [transfer_run_spec b f t amt fa ta hf ht hne h0 hbal] at h
  cases hc : checkedAddI64 ta.balance amt with
  | none =>
    rw [hc] at h
    simp at h
  | some nb =>
    rw [hc] at h
    have hnb : nb = ta.balance + amt := checkedAdd_some_eq _ _ _ hc
    simp only [Option.some.injEq, Prod.mk.injEq, true_and] at h
    subst hnb
    obtain rfl : b2 =
        (b.update f { fa with balance := fa.balance - amt }).update t
          { ta with balance := ta.balance + amt } := h.symm
    refine ⟨?_, ?_, ?_, ?_⟩
    · rw [find_update_of_ne _ _ _ _ hne, find_update_self, hf]
      rfl
    · rw [find_update_self, find_update_of_ne _ _ _ _ (Ne.symm hne), ht]
      rfl
    · have hnd1 : ((b.update f { fa with balance := fa.balance - amt
        }).accounts.map Prod.fst).Nodup := by
        rw [update_map_fst]
        exact hnd
      have hft1 : (b.update f { fa with balance := fa.balance - amt }).find t =
          some ta := by
        rw [find_update_of_ne _ _ _ _ (Ne.symm hne)]
        exact ht
      rw [totalBalance_update _ _ _ _ hnd1 hft1,
        totalBalance_update _ _ _ _ hnd hf]
      show _ - fa.balance + (fa.balance - amt) - ta.balance +
        (ta.balance + amt) = _
      ring
    · intro x hxf hxt
      rw [find_update_of_ne _ _ _ _ hxt, find_update_of_ne _ _ _ _ hxf]

/-- Witness for `transfer_success_balances`: the `main` scenario
`transfer(1, 2, 10000)` takes account 1 from 25000 to 15000 and account 2
from 30000 to 40000, with the total still 55000. -/
theorem transfer_success_balances_witness :
    (Bank.mk [(1, ⟨1, 15000, "Giorgi"⟩), (2, ⟨2, 40000, "QioJI"⟩)]).find 1 =
        some ⟨1, 25000 - 10000, "Giorgi"⟩ ∧
      (Bank.mk [(1, ⟨1, 15000, "Giorgi"⟩), (2, ⟨2, 40000, "QioJI"⟩)]).find 2 =
        some ⟨2, 30000 + 10000, "QioJI"⟩ ∧
      (Bank.mk [(1, ⟨1, 15000, "Giorgi"⟩),
        (2, ⟨2, 40000, "QioJI"⟩)]).totalBalance = demoBank.totalBalance ∧
      ∀ x, x ≠ 1 → x ≠ 2 →
        (Bank.mk [(1, ⟨1, 15000, "Giorgi"⟩), (2, ⟨2, 40000, "QioJI"⟩)]).find x =
          demoBank.find x :=
  transfer_success_balances demoBank
    (Bank.mk [(1, ⟨1, 15000, "Giorgi"⟩), (2, ⟨2, 40000, "QioJI"⟩)]) 1 2 10000
    ⟨1, 25000, "Giorgi"⟩ ⟨2, 30000, "QioJI"⟩ (by decide) (by rfl) (by rfl)
    (by decide) (by decide) (by rfl)

theorem deposit_balance_nonneg (a : Account) (amt : Int) (h : 0 ≤ a.balance) :
    0 ≤ ((a.deposit amt).2).balance := by
  unfold Account.deposit
  by_cases h0 : amt < 0
  · rw [if_pos h0]
    exact h
  · rw [if_neg h0]
    cases hc : checkedAddI64 a.balance amt with
    | none => exact h
    | some nb =>
      have hnb := checkedAdd_some_eq _ _ _ hc
      show 0 ≤ nb
      omega

theorem withdraw_balance_nonneg (a : Account) (amt : Int) (h : 0 ≤ a.balance) :
    0 ≤ ((a.withdraw amt).2).balance := by
  unfold Account.withdraw
  by_cases h0 : amt < 0
  · rw [if_pos h0]
    exact h
  · rw [if_neg h0]
    by_cases hb : a.balance < amt
    · rw [if_pos hb]
      exact h
    · rw [if_neg hb]
      show 0 ≤ a.balance - amt
      omega

theorem allNonNeg_update (b : Bank) (id : Nat) (a : Account)
    (hb : b.allNonNeg) (ha : 0 ≤ a.balance) : (b.update id a).allNonNeg := by
  intro q hq
  simp only [Bank.update, List.mem_map] at hq
  obtain ⟨p, hp, hpq⟩ := hq
  by_cases h : p.1 = id
  · rw [if_pos h] at hpq
    subst hpq
    exact ha
  · rw [if_neg h] at hpq
    subst hpq
    exact hb p hp

theorem balance_nonneg_of_find (b : Bank) (id : Nat) (a : Account)
    (hb : b.allNonNeg) (h : b.find id = some a) : 0 ≤ a.balance :=
  hb _ (mem_of_find_eq b id a h)

theorem transfer_allNonNeg (b : Bank) (f t : Nat) (amt : Int)
    (r : Except AccountError Unit) (b2 : Bank) (hb : b.allNonNeg)
    (h : b.transfer f t amt = some (r, b2)) : b2.allNonNeg := by
  by_cases h0 : amt < 0
  · simp [Bank.transfer, h0] at h
    rw [← h.2]
    exact hb
  by_cases hcf : b.containsKey f = false
  · simp [Bank.transfer, h0, hcf] at h
    rw [← h.2]
    exact hb
  by_cases hct : b.containsKey t = false
  · simp [Bank.transfer, h0, hcf, hct] at h
    rw [← h.2]
    exact hb
  by_cases hft : f = t
  · simp [Bank.transfer, h0, hcf, hct, hft] at h
    rw [← h.2]
    exact hb
  obtain ⟨fa, hfa⟩ : ∃ fa, b.find f = some fa :=
    Option.ne_none_iff_exists'.mp (by simpa [Bank.containsKey] using hcf)
  obtain ⟨ta, hta⟩ : ∃ ta, b.find t = some ta :=
    Option.ne_none_iff_exists'.mp (by simpa [Bank.containsKey] using hct)
  have hfa0 : 0 ≤ fa.balance := balance_nonneg_of_find b f fa hb hfa
  have hta0 : 0 ≤ ta.balance := balance_nonneg_of_find b t ta hb hta
  by_cases hbal : fa.balance < amt
  · simp [Bank.transfer, h0, hcf, hct, hft, hfa, hbal] at h
    rw [← h.2]
    exact hb
  · rw [transfer_run_spec b f t amt fa ta hfa hta hft (not_lt.mp h0)
      (not_lt.mp hbal)] at h
    have hfa1 : (0 : Int) ≤ fa.balance - amt := by omega
    have hb1 : (b.update f { fa with balance := fa.balance - amt }).allNonNeg :=
      allNonNeg_update _ _ _ hb hfa1
    cases hc : checkedAddI64 ta.balance amt with
    | none =>
      rw [hc] at h
      simp only [Option.some.injEq, Prod.mk.injEq] at h
      rw [← h.2]
      exact allNonNeg_update _ _ _ hb1 hta0
    | some nb =>
      rw [hc] at h
      have hnb := checkedAdd_some_eq _ _ _ hc
      simp only [Option.some.injEq, Prod.mk.injEq] at h
      rw [← h.2]
      have hta1 : (0 : Int) ≤ nb := by omega
      exact allNonNeg_update _ _ _ hb1 hta1

theorem applyOp_allNonNeg (b : Bank) (op : Op) (hb : b.allNonNeg) :
    (b.applyOp op).allNonNeg := by
  cases op with
  | deposit id amt =>
    simp only [Bank.applyOp]
    cases hfind : b.find id with
    | none => exact hb
    | some a =>
      exact allNonNeg_update _ _ _ hb
        (deposit_balance_nonneg a amt (balance_nonneg_of_find b id a hb hfind))
  | withdraw id amt =>
    simp only [Bank.applyOp]
    cases hfind : b.find id with
    | none => exact hb
    | some a =>
      exact allNonNeg_update _ _ _ hb
        (withdraw_balance_nonneg a amt (balance_nonneg_of_find b id a hb hfind))
  | transfer f t amt =>
    simp only [Bank.applyOp]
    cases htr : b.transfer f t amt with
    | none => exact hb
    | some p =>
      obtain ⟨r, b2⟩ := p
      exact transfer_allNonNeg b f t amt r b2 hb htr

theorem applyOps_allNonNeg (b : Bank) (ops : List Op) (hb : b.allNonNeg) :
    (b.applyOps ops).allNonNeg := by
  induction ops generalizing b with
  | nil => exact hb
  | cons op ops ih =>
    simp only [Bank.applyOps, List.foldl_cons] at ih ⊢
    exact ih _ (applyOp_allNonNeg b op hb)

/-- Claim C4: Accounts start at balance `0` (`Account::new`), registering
such an account preserves the ledger's non-negativity invariant, and an
arbitrary sequence of deposit / withdraw / transfer operations keeps every
balance `≥ 0` after each operation completes, whether it succeeds or
fails. -/
theorem balances_never_negative (b : Bank) (ops : List Op) (i : Nat)
    (hld : String) (hb : b.allNonNeg) :
    (Account.new i hld).balance = 0 ∧
      (b.addAccount (Account.new i hld)).allNonNeg ∧
      (b.applyOps ops).allNonNeg := by
  refine ⟨rfl, ?_, applyOps_allNonNeg b ops hb⟩
  unfold Bank.addAccount
  split
  · exact allNonNeg_update _ _ _ hb le_rfl
  · intro q hq
    simp only [List.mem_append, List.mem_singleton] at hq
    rcases hq with hq | hq
    · exact hb q hq
    · subst hq
      exact le_rfl

/-- Witness for `balances_never_negative`: starting from the demo ledger,
a transfer, an overdraft attempt, and a negative deposit all leave every
balance non-negative. -/
theorem balances_never_negative_witness :
    (Account.new 3 "Ana").balance = 0 ∧
      (demoBank.addAccount (Account.new 3 "Ana")).allNonNeg ∧
      (demoBank.applyOps [Op.transfer 1 2 10000, Op.withdraw 2 999999,
        Op.deposit 1 (-3), Op.withdraw 1 15000]).allNonNeg :=
  balances_never_negative demoBank
    [Op.transfer 1 2 10000, Op.withdraw 2 999999, Op.deposit 1 (-3),
      Op.withdraw 1 15000] 3 "Ana" (by decide)

end SimpleBank
